import Mathlib

/-!
Verification of the BHOOMI dashboard core (file `BHM2.0.py`).

The development shallowly embeds the decision logic of the dashboard:
the risk classifier (lines 162 and 193-194), the rolling window of
readings (lines 46-57), the restricted-zone detector (lines 198-200),
the two alert buttons (lines 209-217), the percentile band computation
used by the trend charts (lines 84-87 with the quantile calls at
178-186), the synthetic risk generator (line 54), and the CSV loading
branches (lines 29-44).  Machine reals from the source are embedded as
rationals; pandas NaN results are embedded as `Option.none`.
-/

namespace BHM

/-- Weather enumeration used by the synthetic generator (line 53). -/
inductive Weather
  | Sunny | Rainy | Cloudy | Windy
deriving DecidableEq, Repr

/-- One sensor reading, the row schema of the session data frame
(line 48): `["Timestamp", "Vibration", "Slope", "Weather", "Risk"]`. -/
structure Reading where
  timestamp : String
  vibration : ℚ
  slope : ℚ
  weather : Weather
  risk : ℤ
deriving DecidableEq, Repr

/-! ### Risk classifier (lines 162 and 193-194) -/

/-- Severity tiers shown by the dashboard metric. -/
inductive SeverityTier
  | Low | Medium | High
deriving DecidableEq, Repr

/-- Recommended actions shown in the alerts log. -/
inductive RiskAction
  | Monitoring | Warning | Evacuation
deriving DecidableEq, Repr

/-- Line 162: `"HIGH" if current_risk > 70 else "MEDIUM" if current_risk > 40
else "LOW"`. -/
def risk_status (current_risk : ℤ) : SeverityTier :=
  if current_risk > 70 then .High
  else if current_risk > 40 then .Medium
  else .Low

/-- Lines 193-194: `np.where(Risk > 70, "Evacuation", np.where(Risk > 40,
"Warning", "Monitoring"))`. -/
def alertsAction (risk : ℤ) : RiskAction :=
  if risk > 70 then .Evacuation
  else if risk > 40 then .Warning
  else .Monitoring

/-- The classifier contract: the tier from line 162 paired with the action
from lines 193-194, both driven by the same integer risk score. -/
def classify (s : ℤ) : SeverityTier × RiskAction :=
  (risk_status s, alertsAction s)

/-! ### Rolling window (lines 46-57)

Line 56 appends the new reading to the session list; line 57 takes
`tail(50)`, the most recent 50 rows, as the data frame every consumer
sees.  `windowK k xs` is pandas `xs.tail(k)`. -/

/-- Pandas `tail k`: the last `k` entries of the appended list, in
insertion order. -/
def windowK (k : ℕ) (xs : List Reading) : List Reading :=
  xs.drop (xs.length - k)

/-! ### Restricted-zone detector (lines 198-200)

Line 200: `[zone for zone in worker_zones if zone in restricted_areas]`.
A worker assignment is a pair of a worker id and the zone the worker is
in; `worker_zones` is the zone component of each assignment. -/

/-- The detector of line 200: one output entry per assignment whose zone
is restricted, in assignment order. -/
def detect (assignments : List (ℕ × String)) (restricted : List String) :
    List String :=
  (assignments.map Prod.snd).filter (fun zone => decide (zone ∈ restricted))

/-- Helper for the spec-side reading of the detector contract: keep the
first occurrence of every zone, dropping later duplicates. -/
def firstSeenAux (seen : List String) : List String → List String
  | [] => []
  | z :: zs =>
    if z ∈ seen then firstSeenAux seen zs
    else z :: firstSeenAux (z :: seen) zs

/-- Modelled from the spec words of 4.4: "the restricted zones that have at
least one worker currently assigned, preserving the order zones first
appear" - each such zone listed once, at its first appearance. -/
def detectDedupSpec (assignments : List (ℕ × String))
    (restricted : List String) : List String :=
  firstSeenAux [] (detect assignments restricted)

/-! ### Alert dispatcher (lines 209-217)

Line 209-213: the zone-intrusion button reports success exactly when
`restricted_alerts` is non-empty, and an informational no-op otherwise.
Line 216-217: the manual button reports success unconditionally. -/

/-- Trigger of an alert event. -/
inductive Trigger
  | ZoneIntrusion | ManualRequest
deriving DecidableEq, Repr

/-- Outcome of an alert dispatch. -/
inductive Outcome
  | Sent | SuppressedNoIntrusion
deriving DecidableEq, Repr

/-- Dispatch as implemented by the two buttons: lines 210-213 branch on
`if restricted_alerts:`; lines 216-217 have no condition at all. -/
def dispatch (t : Trigger) (payload : List String) : Outcome :=
  match t with
  | .ZoneIntrusion => if payload.isEmpty then .SuppressedNoIntrusion else .Sent
  | .ManualRequest => .Sent

/-! ### Session state across data-source switches (lines 27, 29-57)

Streamlit `st.session_state` persists for the whole browser session,
across reruns; changing the radio selection (line 27) only reruns the
script, it does not clear `st.session_state`.  The session buffer `df`
is created once (lines 47-48, only when the key is absent), appended to
on every simulated tick (line 56), and is never deleted or cleared by
the CSV branches (lines 29-44), which leave it untouched.  The session
buffer is `none` while the key is absent, `some xs` after it exists. -/

/-- One rerun of the script in "Simulated Live Data" mode (lines 46-57):
initialise the buffer if absent, append the fresh reading, and display
the last 50 rows.  Returns the new session buffer and the displayed
window. -/
def simTick (ss : Option (List Reading)) (r : Reading) :
    Option (List Reading) × List Reading :=
  let prev := ss.getD []
  let df := prev ++ [r]
  (some df, windowK 50 df)

/-- One rerun of the script in either CSV mode (lines 29-44): the session
buffer is not read, cleared, or written - the branch only binds a local
`df` from the file.  The session buffer is returned unchanged. -/
def csvTick (ss : Option (List Reading)) : Option (List Reading) :=
  ss

/-! ### Synthetic risk generator (line 54)

Line 54: `np.random.randint(0, 100)`.  Numpy `randint(low, high)` draws
uniformly from the integers `low, ..., high - 1` (`high` exclusive), by
reducing a uniform random word modulo `high - low` and shifting by
`low`.  The generator's uniform word is the argument `u`. -/

/-- Numpy `randint(low, high)` applied to the uniform random word `u`. -/
def randint (low high : ℤ) (u : ℕ) : ℤ :=
  low + (u % (high - low).toNat : ℕ)

/-- Line 54: the `"Risk"` field of `new_data`. -/
def newDataRisk (u : ℕ) : ℤ :=
  randint 0 100 u

/-! ### CSV loading branches (lines 29-44, 161)

Pandas `read_csv` (an external library call) raises on an empty input
(`EmptyDataError`) and on an untokenisable input (`ParserError`); on a
well-formed table it returns the frame with the columns found in the
file, performing no schema validation.  Line 161 then evaluates
`df["Risk"].iloc[-1]`, which raises `KeyError` when the `Risk` column is
absent and `IndexError` when the frame has no rows. -/

/-- The content handed to `read_csv`: a well-formed table with its header
columns and rows, an empty resource, or an untokenisable one. -/
inductive CsvContent
  | table (cols : List String) (rows : List (List String))
  | empty
  | malformed
deriving DecidableEq, Repr

/-- How a rerun of the script ends during data loading and the first
metric: a loaded frame that the tick continues with, a halt with a
user-visible message (`st.warning`/`st.error` followed by `st.stop`), or
an uncaught Python exception. -/
inductive LoadOutcome
  | proceed (cols : List String) (rows : List (List String))
  | haltMessage (msg : String)
  | crash
deriving DecidableEq, Repr

/-- Pandas `read_csv` behaviour on the three content shapes. -/
def read_csv : CsvContent → Except Unit (List String × List (List String))
  | .table cols rows => .ok (cols, rows)
  | .empty => .error ()
  | .malformed => .error ()

/-- Lines 37-44, the "Upload CSV" branch: with no upload, warn and stop
(lines 42-44); with an upload, call `read_csv` with no `try`/`except`
around it, so a parse failure escapes as an uncaught exception. -/
def uploadBranch (uploaded : Option CsvContent) : LoadOutcome :=
  match uploaded with
  | none => .haltMessage "Please upload a CSV to continue."
  | some c =>
    match read_csv c with
    | .ok (cols, rows) => .proceed cols rows
    | .error _ => .crash

/-- Lines 29-35, the "Preloaded CSV" branch: `read_csv` inside
`try`/bare-`except`, so any failure (absent file included, modelled as
`none`) becomes an error message and a stop. -/
def preloadedBranch (resource : Option CsvContent) : LoadOutcome :=
  match resource with
  | none => .haltMessage "Preloaded file not found."
  | some c =>
    match read_csv c with
    | .ok (cols, rows) => .proceed cols rows
    | .error _ => .haltMessage "Preloaded file not found."

/-- Line 161, `df["Risk"].iloc[-1]`: `KeyError` without a `Risk` column,
`IndexError` on a frame with no rows; both uncaught. -/
def metricsStep (cols : List String) (rows : List (List String)) :
    LoadOutcome :=
  if "Risk" ∈ cols then
    if rows.isEmpty then .crash else .proceed cols rows
  else .crash

/-- A full tick of the "Upload CSV" source up to the first metric read:
the loading branch followed by line 161. -/
def uploadTick (uploaded : Option CsvContent) : LoadOutcome :=
  match uploadBranch uploaded with
  | .proceed cols rows => metricsStep cols rows
  | o => o

/-! ### Percentile bands for the trend charts (lines 84-87, 178-186)

`trend_chart` receives `df[column].quantile(0.3)` and
`df[column].quantile(0.7)` (lines 178-186) and reads
`df[column].min()` and `df[column].max()` itself (lines 84-87).
Pandas `Series.quantile(q)` with the default linear interpolation sorts
the values, takes the virtual position `p = q * (n - 1)`, and returns
`x[i] + (p - i) * (x[i+1] - x[i])` with `i = floor p` (the upper index
clamped to the last element); on an empty series `quantile`, `min` and
`max` all return NaN.  NaN is embedded as `Option.none`.  Pandas
rejects `q` outside `[0, 1]`; the calls here use only `0.3` and `0.7`,
and the theorems restrict attention to `q` in `[0, 1]`. -/

/-- Ascending sort of the series values. -/
def sortQ (vs : List ℚ) : List ℚ :=
  List.insertionSort (· ≤ ·) vs

/-- Integer part of a virtual quantile position. -/
def qIndex (p : ℚ) : ℕ :=
  (Int.floor p).toNat

/-- Fractional part of a virtual quantile position. -/
def qFrac (p : ℚ) : ℚ :=
  p - (qIndex p : ℚ)

/-- Linear interpolation of a sorted series at virtual position `p`,
with the upper index clamped to the current value when out of range. -/
def interp (s : List ℚ) (p : ℚ) : ℚ :=
  s.getD (qIndex p) 0 +
    qFrac p * (s.getD (qIndex p + 1) (s.getD (qIndex p) 0) - s.getD (qIndex p) 0)

/-- Pandas `Series.quantile(q)` with linear interpolation; NaN on an
empty series. -/
def pdQuantile (vs : List ℚ) (q : ℚ) : Option ℚ :=
  if vs.isEmpty then none
  else some (interp (sortQ vs) (q * ((vs.length : ℚ) - 1)))

/-- Pandas `Series.min()`: NaN on an empty series. -/
def pdMin (vs : List ℚ) : Option ℚ :=
  vs.min?

/-- Pandas `Series.max()`: NaN on an empty series. -/
def pdMax (vs : List ℚ) : Option ℚ :=
  vs.max?

/-- The band of values feeding one trend chart: the two quantile bounds
computed at the call sites (lines 178-186) and the extrema read inside
`trend_chart` (lines 84-87). -/
def band (vs : List ℚ) (low_q high_q : ℚ) :
    Option ℚ × Option ℚ × Option ℚ × Option ℚ :=
  (pdQuantile vs low_q, pdQuantile vs high_q, pdMin vs, pdMax vs)

/-- Error vocabulary of the spec for the summarizer. -/
inductive BandError
  | emptySequence
deriving DecidableEq, Repr

/-- Modelled from the spec: the summarizer contract of 4.6, which "fails
with `EmptySequence` if given zero values" and otherwise returns the two
quantile bounds and the extrema. -/
def bandSpec (vs : List ℚ) (low_q high_q : ℚ) :
    Except BandError (ℚ × ℚ × ℚ × ℚ) :=
  if vs.isEmpty then .error .emptySequence
  else .ok (interp (sortQ vs) (low_q * ((vs.length : ℚ) - 1)),
            interp (sortQ vs) (high_q * ((vs.length : ℚ) - 1)),
            (sortQ vs).getD 0 0,
            (sortQ vs).getD (vs.length - 1) 0)

/-! ### Facts about the interpolation -/

theorem qIndex_cast_le {p : ℚ} (hp : 0 ≤ p) : (qIndex p : ℚ) ≤ p := by
  have h0 : (0 : ℤ) ≤ Int.floor p := Int.floor_nonneg.mpr hp
  have h1 : (((Int.floor p).toNat : ℤ) : ℚ) ≤ p := by
    rw [Int.toNat_of_nonneg h0]
    exact Int.floor_le p
  exact_mod_cast h1

theorem lt_qIndex_add_one {p : ℚ} (hp : 0 ≤ p) : p < (qIndex p : ℚ) + 1 := by
  have h0 : (0 : ℤ) ≤ Int.floor p := Int.floor_nonneg.mpr hp
  have h1 : p < ((Int.floor p : ℤ) : ℚ) + 1 := Int.lt_floor_add_one p
  have h2 : (((Int.floor p).toNat : ℤ) : ℚ) = ((Int.floor p : ℤ) : ℚ) := by
    exact_mod_cast congrArg (fun z : ℤ => (z : ℚ)) (Int.toNat_of_nonneg h0)
  unfold qIndex
  push_cast at h2 ⊢
  rw [h2]
  exact h1

theorem qFrac_nonneg {p : ℚ} (hp : 0 ≤ p) : 0 ≤ qFrac p :=
  sub_nonneg.mpr (qIndex_cast_le hp)

theorem qFrac_lt_one {p : ℚ} (hp : 0 ≤ p) : qFrac p < 1 := by
  have := lt_qIndex_add_one hp
  unfold qFrac
  linarith

theorem qIndex_mono {p q : ℚ} (h : p ≤ q) : qIndex p ≤ qIndex q := by
  unfold qIndex
  exact Int.toNat_le_toNat (Int.floor_le_floor h)

theorem qIndex_le_of_le {p : ℚ} {m : ℕ} (hp : 0 ≤ p) (h : p ≤ (m : ℚ)) :
    qIndex p ≤ m := by
  have h1 : (qIndex p : ℚ) ≤ (m : ℚ) := le_trans (qIndex_cast_le hp) h
  exact_mod_cast h1

theorem qIndex_natCast (m : ℕ) : qIndex (m : ℚ) = m := by
  unfold qIndex
  rw [Int.floor_natCast]
  exact Int.toNat_natCast m

theorem qFrac_natCast (m : ℕ) : qFrac (m : ℚ) = 0 := by
  unfold qFrac
  rw [qIndex_natCast]
  ring

theorem sorted_getD_mono {s : List ℚ} (hs : s.Sorted (· ≤ ·)) {i j : ℕ}
    (hij : i ≤ j) (hj : j < s.length) : s.getD i 0 ≤ s.getD j 0 := by
  rcases lt_or_eq_of_le hij with h | h
  · have hi : i < s.length := lt_trans h hj
    rw [List.getD_eq_getElem s 0 hi, List.getD_eq_getElem s 0 hj]
    have hfin : (⟨i, hi⟩ : Fin s.length) < ⟨j, hj⟩ := h
    have := List.pairwise_iff_get.mp hs ⟨i, hi⟩ ⟨j, hj⟩ hfin
    simpa [List.get_eq_getElem] using this
  · subst h
    exact le_refl _

theorem interp_ge_left {s : List ℚ} (hs : s.Sorted (· ≤ ·)) {p : ℚ}
    (hp : 0 ≤ p) : s.getD (qIndex p) 0 ≤ interp s p := by
  by_cases h : qIndex p + 1 < s.length
  · have hx : s.getD (qIndex p) 0 ≤ s.getD (qIndex p + 1) 0 :=
      sorted_getD_mono hs (Nat.le_succ _) h
    have hd : s.getD (qIndex p + 1) (s.getD (qIndex p) 0) =
        s.getD (qIndex p + 1) 0 := by
      rw [List.getD_eq_getElem s _ h, List.getD_eq_getElem s 0 h]
    unfold interp
    rw [hd]
    have hf := qFrac_nonneg hp
    nlinarith
  · have hge : s.length ≤ qIndex p + 1 := Nat.le_of_not_lt h
    have hd : s.getD (qIndex p + 1) (s.getD (qIndex p) 0) =
        s.getD (qIndex p) 0 := List.getD_eq_default _ _ hge
    unfold interp
    rw [hd]
    ring_nf
    exact le_refl _

theorem interp_le_right {s : List ℚ} (hs : s.Sorted (· ≤ ·)) {p : ℚ}
    (hp : 0 ≤ p) (h : qIndex p + 1 < s.length) :
    interp s p ≤ s.getD (qIndex p + 1) 0 := by
  have hx : s.getD (qIndex p) 0 ≤ s.getD (qIndex p + 1) 0 :=
    sorted_getD_mono hs (Nat.le_succ _) h
  have hd : s.getD (qIndex p + 1) (s.getD (qIndex p) 0) =
      s.getD (qIndex p + 1) 0 := by
    rw [List.getD_eq_getElem s _ h, List.getD_eq_getElem s 0 h]
  have hf1 := qFrac_lt_one hp
  unfold interp
  rw [hd]
  nlinarith

theorem interp_mono {s : List ℚ} (hs : s.Sorted (· ≤ ·)) (hn : s ≠ [])
    {p q : ℚ} (hp : 0 ≤ p) (hpq : p ≤ q) (hq : q ≤ (s.length : ℚ) - 1) :
    interp s p ≤ interp s q := by
  have hlen : 1 ≤ s.length := List.length_pos.mpr hn
  have hq0 : 0 ≤ q := le_trans hp hpq
  have hcast : ((s.length - 1 : ℕ) : ℚ) = (s.length : ℚ) - 1 := by
    push_cast [Nat.cast_sub hlen]
    ring
  have hqle : qIndex q ≤ s.length - 1 := by
    apply qIndex_le_of_le hq0
    rw [hcast]
    exact hq
  have hile : qIndex p ≤ qIndex q := qIndex_mono hpq
  by_cases hii : qIndex p = qIndex q
  · have hfr : qFrac p ≤ qFrac q := by
      unfold qFrac
      rw [hii]
      linarith
    have hx1 : s.getD (qIndex p) 0 ≤
        s.getD (qIndex p + 1) (s.getD (qIndex p) 0) := by
      by_cases h : qIndex p + 1 < s.length
      · have hd : s.getD (qIndex p + 1) (s.getD (qIndex p) 0) =
            s.getD (qIndex p + 1) 0 := by
          rw [List.getD_eq_getElem s _ h, List.getD_eq_getElem s 0 h]
        rw [hd]
        exact sorted_getD_mono hs (Nat.le_succ _) h
      · rw [List.getD_eq_default _ _ (Nat.le_of_not_lt h)]
    unfold interp
    rw [← hii]
    have hf := qFrac_nonneg hp
    nlinarith
  · have hlt : qIndex p + 1 ≤ qIndex q :=
      Nat.succ_le_of_lt (lt_of_le_of_ne hile hii)
    have hqn : qIndex q < s.length := by omega
    have h1n : qIndex p + 1 < s.length := by omega
    calc interp s p ≤ s.getD (qIndex p + 1) 0 := interp_le_right hs hp h1n
      _ ≤ s.getD (qIndex q) 0 := sorted_getD_mono hs hlt hqn
      _ ≤ interp s q := interp_ge_left hs hq0

theorem interp_zero (s : List ℚ) : interp s 0 = s.getD 0 0 := by
  have h0 : qIndex 0 = 0 := by
    simpa using qIndex_natCast 0
  have hf : qFrac 0 = 0 := by
    simpa using qFrac_natCast 0
  unfold interp
  rw [h0, hf]
  ring

theorem interp_last {s : List ℚ} (hn : s ≠ []) :
    interp s ((s.length : ℚ) - 1) = s.getD (s.length - 1) 0 := by
  have hlen : 1 ≤ s.length := List.length_pos.mpr hn
  have hcast : ((s.length - 1 : ℕ) : ℚ) = (s.length : ℚ) - 1 := by
    push_cast [Nat.cast_sub hlen]
    ring
  rw [← hcast]
  unfold interp
  rw [qIndex_natCast, qFrac_natCast]
  ring

theorem interp_bounds {s : List ℚ} (hs : s.Sorted (· ≤ ·)) (hn : s ≠ [])
    {p : ℚ} (hp : 0 ≤ p) (hple : p ≤ (s.length : ℚ) - 1) :
    s.getD 0 0 ≤ interp s p ∧ interp s p ≤ s.getD (s.length - 1) 0 := by
  constructor
  · rw [← interp_zero s]
    exact interp_mono hs hn le_rfl hp hple
  · rw [← interp_last hn]
    exact interp_mono hs hn hp hple le_rfl

theorem sortQ_sorted (vs : List ℚ) : (sortQ vs).Sorted (· ≤ ·) :=
  List.sorted_insertionSort _ vs

theorem sortQ_perm (vs : List ℚ) : (sortQ vs).Perm vs :=
  List.perm_insertionSort _ vs

theorem sortQ_length (vs : List ℚ) : (sortQ vs).length = vs.length :=
  (sortQ_perm vs).length_eq

theorem sortQ_ne_nil {vs : List ℚ} (hn : vs ≠ []) : sortQ vs ≠ [] := by
  intro h
  apply hn
  have := sortQ_length vs
  rw [h] at this
  exact List.length_eq_zero.mp this.symm

theorem sortQ_head_mem {vs : List ℚ} (hn : vs ≠ []) :
    (sortQ vs).getD 0 0 ∈ vs := by
  have hl : 0 < (sortQ vs).length := by
    rw [sortQ_length]
    exact List.length_pos.mpr hn
  rw [List.getD_eq_getElem _ 0 hl]
  exact (sortQ_perm vs).mem_iff.mp (List.getElem_mem hl)

theorem sortQ_last_mem {vs : List ℚ} (hn : vs ≠ []) :
    (sortQ vs).getD (vs.length - 1) 0 ∈ vs := by
  have hpos : 0 < vs.length := List.length_pos.mpr hn
  have hl : vs.length - 1 < (sortQ vs).length := by
    rw [sortQ_length]
    omega
  rw [List.getD_eq_getElem _ 0 hl]
  exact (sortQ_perm vs).mem_iff.mp (List.getElem_mem hl)

theorem pdMin_spec {vs : List ℚ} (hn : vs ≠ []) :
    ∃ m, pdMin vs = some m ∧ ∀ x ∈ vs, m ≤ x := by
  cases h : vs.min? with
  | none => exact absurd (List.min?_eq_none_iff.mp h) hn
  | some m =>
    exact ⟨m, h, (List.le_min?_iff (fun a b c => le_min_iff) h).mp (le_refl m)⟩

theorem pdMax_spec {vs : List ℚ} (hn : vs ≠ []) :
    ∃ M, pdMax vs = some M ∧ ∀ x ∈ vs, x ≤ M := by
  cases h : vs.max? with
  | none => exact absurd (List.max?_eq_none_iff.mp h) hn
  | some M =>
    exact ⟨M, h, (List.max?_le_iff (fun a b c => max_le_iff) h).mp (le_refl M)⟩

/-! ## The claims -/

/-- Claim C1: for every integer risk score `s`, `classify s` is
`(High, Evacuation)` exactly when `s > 70`, `(Medium, Warning)` exactly
when `40 < s ≤ 70`, and `(Low, Monitoring)` exactly when `s ≤ 40`; in
particular the boundary values 70, 71, 40, 41 fall as stated, and the
function is total over all of `ℤ` (it is defined on every integer, with
no rejection outside `[0, 100]`). -/
theorem c1_classify_thresholds (s : ℤ) :
    (classify s = (.High, .Evacuation) ↔ 70 < s) ∧
    (classify s = (.Medium, .Warning) ↔ 40 < s ∧ s ≤ 70) ∧
    (classify s = (.Low, .Monitoring) ↔ s ≤ 40) ∧
    classify 70 = (.Medium, .Warning) ∧
    classify 71 = (.High, .Evacuation) ∧
    classify 40 = (.Low, .Monitoring) ∧
    classify 41 = (.Medium, .Warning) := by
  refine ⟨?_, ?_, ?_, by decide, by decide, by decide, by decide⟩ <;>
    · unfold classify risk_status alertsAction
      split_ifs with h1 h2 <;> simp [Prod.ext_iff] <;> omega

/-- Claim C2: the displayed window holds at most 50 readings after any
sequence of appends, is a suffix of the appended sequence (insertion
order preserved), and after 51 appends it is exactly the last 50
entries: the newest entry is in the window and the oldest original
entry has been evicted. -/
theorem c2_window_fifo (xs : List Reading) :
    (windowK 50 xs).length ≤ 50 ∧
    List.IsSuffix (windowK 50 xs) xs ∧
    (xs.length = 51 →
      windowK 50 xs = xs.drop 1 ∧
      (∀ l, xs.getLast? = some l → l ∈ windowK 50 xs) ∧
      (xs.Nodup → ∀ h, xs.head? = some h → h ∉ windowK 50 xs)) := by
  refine ⟨?_, ?_, ?_⟩
  · simp only [windowK, List.length_drop]
    omega
  · exact List.drop_suffix _ _
  · intro h51
    have hdrop : windowK 50 xs = xs.drop 1 := by
      simp only [windowK, h51]
    refine ⟨hdrop, ?_, ?_⟩
    · intro l hl
      match xs, h51 with
      | a :: b :: t, _ =>
        rw [hdrop]
        simp only [List.drop_succ_cons, List.drop_zero]
        rw [List.getLast?_cons_cons] at hl
        exact List.mem_of_mem_getLast? (Option.mem_def.mpr hl)
    · intro hnd h hh
      match xs, h51 with
      | a :: t, _ =>
        simp only [List.head?_cons, Option.some.injEq] at hh
        subst hh
        rw [hdrop]
        simp only [List.drop_succ_cons, List.drop_zero]
        exact (List.nodup_cons.mp hnd).1

/-- Claim C3 counterexample: with two workers assigned to the same
restricted zone, the detector of line 200 lists the zone once per
worker, not once per zone as the first-appearance-order contract
states. -/
theorem c3_counterexample :
    detect [(1, "Zone A"), (2, "Zone A")] ["Zone A", "Zone C"] =
      ["Zone A", "Zone A"] ∧
    detectDedupSpec [(1, "Zone A"), (2, "Zone A")] ["Zone A", "Zone C"] =
      ["Zone A"] ∧
    detect [(1, "Zone A"), (2, "Zone A")] ["Zone A", "Zone C"] ≠
      detectDedupSpec [(1, "Zone A"), (2, "Zone A")] ["Zone A", "Zone C"] := by
  refine ⟨by decide, by decide, by decide⟩

/-- Claim C3 (amended): the detector emits one entry per assignment whose
zone is restricted, in assignment order (so a zone can repeat); the set
of zones it emits is exactly the restricted zones with at least one
worker assigned; on an empty assignment list it is empty, and the two
singleton examples of the claim hold as stated. -/
theorem c3_detect_zones (a : List (ℕ × String)) (r : List String) :
    (∀ z, z ∈ detect a r ↔ z ∈ r ∧ ∃ w, (w, z) ∈ a) ∧
    List.Sublist (detect a r) (a.map Prod.snd) ∧
    detect [] r = [] ∧
    detect [(1, "Zone A")] ["Zone A", "Zone C"] = ["Zone A"] ∧
    detect [(1, "Zone B")] ["Zone A", "Zone C"] = [] := by
  refine ⟨?_, ?_, rfl, by decide, by decide⟩
  · intro z
    unfold detect
    simp only [List.mem_filter, List.mem_map, decide_eq_true_eq]
    constructor
    · rintro ⟨⟨⟨w, z2⟩, hmem, hz⟩, hr⟩
      subst hz
      exact ⟨hr, w, hmem⟩
    · rintro ⟨hr, w, hmem⟩
      exact ⟨⟨(w, z), hmem, rfl⟩, hr⟩
  · exact List.filter_sublist _

/-- Claim C4: the zone-intrusion button reports `Sent` exactly when its
payload of intruded zones is non-empty, and `SuppressedNoIntrusion`
exactly when it is empty; the manual button reports `Sent` regardless of
the payload. -/
theorem c4_dispatch_outcomes (payload : List String) :
    (dispatch .ZoneIntrusion payload = .Sent ↔ payload ≠ []) ∧
    (dispatch .ZoneIntrusion payload = .SuppressedNoIntrusion ↔
      payload = []) ∧
    dispatch .ManualRequest payload = .Sent := by
  unfold dispatch
  cases payload <;> simp

/-- Claim C10: the detector output has one entry per matching assignment:
its length is the number of assignments whose zone is restricted, and a
restricted zone to which `k` workers are assigned appears exactly `k`
times in the output. -/
theorem c10_detect_multiplicity (a : List (ℕ × String)) (r : List String) :
    (detect a r).length = a.countP (fun p => decide (p.2 ∈ r)) ∧
    ∀ z ∈ r, (detect a r).count z = a.countP (fun p => p.2 == z) := by
  constructor
  · unfold detect
    rw [← List.countP_eq_length_filter, List.countP_map]
    rfl
  · intro z hz
    unfold detect
    rw [List.count_filter (by simpa using hz), List.count_eq_countP,
      List.countP_map]
    rfl

/-- Claim C10 witness: two workers in restricted "Zone A" make the zone
appear twice in the detector output. -/
theorem c10_detect_multiplicity_witness :
    ("Zone A" ∈ ["Zone A", "Zone C"]) ∧
    (detect [(1, "Zone A"), (2, "Zone A"), (3, "Zone B")]
        ["Zone A", "Zone C"]).count "Zone A" =
      [(1, "Zone A"), (2, "Zone A"), (3, "Zone B")].countP
        (fun p => p.2 == "Zone A") :=
  ⟨by decide,
    (c10_detect_multiplicity [(1, "Zone A"), (2, "Zone A"), (3, "Zone B")]
      ["Zone A", "Zone C"]).2 "Zone A" (by decide)⟩

/-- Fifty-one pairwise distinct readings, risk scores 0 to 50. -/
def sample51 : List Reading :=
  (List.range 51).map (fun (n : ℕ) => ⟨"t", 0, 0, .Sunny, Int.ofNat n⟩)

/-- Claim C2 witness: the FIFO part of `c2_window_fifo` applied to a
concrete run of 51 appended readings. -/
theorem c2_window_fifo_witness :
    sample51.length = 51 ∧
    (windowK 50 sample51).length ≤ 50 ∧
    windowK 50 sample51 = sample51.drop 1 := by
  have h := c2_window_fifo sample51
  have h51 : sample51.length = 51 := by
    unfold sample51
    rw [List.length_map, List.length_range]
  exact ⟨h51, h.1, (h.2.2 h51).1⟩

/-- A first sample reading, appended while "Simulated Live Data" is the
selected source. -/
def sampleReading1 : Reading :=
  ⟨"09:00:00", 1, 45, .Sunny, 50⟩

/-- A second sample reading, appended after the source has been switched
away and back. -/
def sampleReading2 : Reading :=
  ⟨"09:01:00", 1, 46, .Rainy, 80⟩

/-- Claim C5 counterexample: start a session in "Simulated Live Data"
(one reading appended), switch to a CSV source, and observe that the
session buffer still holds that reading - its length is 1, not 0 - and
that after switching back and appending once more the displayed window
still contains the pre-switch reading. -/
theorem c5_counterexample :
    ((csvTick (simTick none sampleReading1).1).getD []).length ≠ 0 ∧
    sampleReading1 ∈
      (simTick (csvTick (simTick none sampleReading1).1) sampleReading2).2 := by
  constructor
  · decide
  · have h : (simTick (csvTick (simTick none sampleReading1).1)
        sampleReading2).2 = [sampleReading1, sampleReading2] := rfl
    rw [h]
    exact List.mem_cons_self _ _

/-- Claim C5 (amended): switching the Reading Source does not reset the
Window.  A CSV tick leaves the session buffer unchanged, and every
reading already in the buffer is still in the displayed window after
the source is switched away and a simulated append happens again (here
under the capacity bound, so eviction is not the cause of any
disappearance). -/
theorem c5_no_reset (ss : Option (List Reading)) (r : Reading)
    (hlen : (ss.getD []).length ≤ 49) :
    csvTick ss = ss ∧
    ∀ x ∈ ss.getD [], x ∈ (simTick (csvTick ss) r).2 := by
  refine ⟨rfl, ?_⟩
  intro x hx
  show x ∈ windowK 50 ((ss.getD []) ++ [r])
  have hl : ((ss.getD []) ++ [r]).length ≤ 50 := by
    simp only [List.length_append, List.length_cons, List.length_nil]
    omega
  unfold windowK
  rw [Nat.sub_eq_zero_of_le hl, List.drop_zero]
  exact List.mem_append_left _ hx

/-- Claim C5 witness: the no-reset theorem applied to a concrete buffer
of one reading. -/
theorem c5_no_reset_witness :
    (((some [sampleReading1] : Option (List Reading)).getD []).length ≤ 49) ∧
    (csvTick (some [sampleReading1]) = some [sampleReading1] ∧
      ∀ x ∈ (some [sampleReading1] : Option (List Reading)).getD [],
        x ∈ (simTick (csvTick (some [sampleReading1])) sampleReading2).2) :=
  ⟨by decide, c5_no_reset (some [sampleReading1]) sampleReading2 (by decide)⟩

/-- Helper: on a non-empty series the quantile is the interpolated value,
not NaN. -/
theorem pdQuantile_eq_some {vs : List ℚ} (hn : vs ≠ []) (q : ℚ) :
    pdQuantile vs q =
      some (interp (sortQ vs) (q * ((vs.length : ℚ) - 1))) := by
  cases vs with
  | nil => exact absurd rfl hn
  | cons a t => simp [pdQuantile]

/-- Claim C6 counterexample: on zero values the band computation returns
a tuple whose four components are all NaN (pandas `quantile`, `min` and
`max` of an empty series), not a distinguishable `EmptySequence` error
as the spec-side contract demands. -/
theorem c6_counterexample :
    band [] (3/10) (7/10) = (none, none, none, none) ∧
    bandSpec [] (3/10) (7/10) = .error .emptySequence :=
  ⟨rfl, rfl⟩

/-- Claim C6 (amended): the band computation never produces an error
result; on zero values every component is NaN (`none`), and on a
non-empty series every component is an actual number - so the all-NaN
tuple, not an error value, is what marks the empty case. -/
theorem c6_band_nan_iff_empty (vs : List ℚ) (low_q high_q : ℚ) :
    (band vs low_q high_q = (none, none, none, none) ↔ vs = []) ∧
    (vs ≠ [] → ∃ a b c d,
      band vs low_q high_q = (some a, some b, some c, some d)) := by
  constructor
  · constructor
    · intro h
      have h3 : pdMin vs = none := by
        have := congrArg (fun t => t.2.2.1) h
        simpa [band] using this
      exact List.min?_eq_none_iff.mp h3
    · rintro rfl
      rfl
  · intro hn
    obtain ⟨m, hm, _⟩ := pdMin_spec hn
    obtain ⟨M, hM, _⟩ := pdMax_spec hn
    refine ⟨interp (sortQ vs) (low_q * ((vs.length : ℚ) - 1)),
      interp (sortQ vs) (high_q * ((vs.length : ℚ) - 1)), m, M, ?_⟩
    rw [band, pdQuantile_eq_some hn, pdQuantile_eq_some hn]
    unfold pdMin at hm
    unfold pdMax at hM
    rw [pdMin, pdMax, hm, hM]

/-- Claim C6 witness: the NaN-only-when-empty characterisation applied
to the empty series and to a concrete singleton series. -/
theorem c6_band_nan_iff_empty_witness :
    (band [] (3/10) (7/10) = (none, none, none, none) ↔ ([] : List ℚ) = []) ∧
    (([42] : List ℚ) ≠ [] ∧ ∃ a b c d,
      band [42] (3/10) (7/10) = (some a, some b, some c, some d)) :=
  ⟨(c6_band_nan_iff_empty [] (3/10) (7/10)).1,
    by simp,
    (c6_band_nan_iff_empty [42] (3/10) (7/10)).2 (by simp)⟩

/-- Claim C8 counterexample: `np.random.randint(0, 100)` has an exclusive
upper bound, so no value of the generator word ever produces a risk
score of 100 - contradicting "including 100 itself". -/
theorem c8_counterexample : ¬ ∃ u : ℕ, newDataRisk u = 100 := by
  rintro ⟨u, hu⟩
  unfold newDataRisk randint at hu
  rw [show ((100 : ℤ) - 0).toNat = 100 from by decide] at hu
  have hlt : u % 100 < 100 := Nat.mod_lt u (by norm_num)
  omega

/-- Claim C8 (amended): the synthetic risk score is drawn uniformly from
the integers 0 to 99 (`randint`'s upper bound is exclusive): every
value of the generator word lands in `[0, 99]`, every target in
`[0, 99]` is attainable, and over one full period of the generator word
each target is hit exactly once. -/
theorem c8_risk_uniform_0_99 :
    (∀ u : ℕ, 0 ≤ newDataRisk u ∧ newDataRisk u ≤ 99) ∧
    (∀ v : ℤ, 0 ≤ v → v ≤ 99 →
      ((Finset.range 100).filter (fun u => newDataRisk u = v)).card = 1) := by
  have h100 : ((100 : ℤ) - 0).toNat = 100 := by decide
  constructor
  · intro u
    unfold newDataRisk randint
    rw [h100]
    have hlt : u % 100 < 100 := Nat.mod_lt u (by norm_num)
    omega
  · intro v h0 h9
    rw [Finset.card_eq_one]
    refine ⟨v.toNat, ?_⟩
    ext u
    simp only [Finset.mem_filter, Finset.mem_range, Finset.mem_singleton]
    unfold newDataRisk randint
    rw [h100]
    constructor
    · rintro ⟨hu, he⟩
      rw [Nat.mod_eq_of_lt hu] at he
      omega
    · rintro rfl
      have hlt : v.toNat < 100 := by omega
      rw [Nat.mod_eq_of_lt hlt]
      omega

/-- Claim C8 witness: the uniformity statement applied to the concrete
target 42, and the counterexample target 100 being out of range of the
first conjunct at `u = 0`. -/
theorem c8_risk_uniform_witness :
    ((0 : ℤ) ≤ 42 ∧ (42 : ℤ) ≤ 99) ∧
    ((Finset.range 100).filter (fun u => newDataRisk u = 42)).card = 1 :=
  ⟨⟨by norm_num, by norm_num⟩,
    c8_risk_uniform_0_99.2 42 (by norm_num) (by norm_num)⟩

/-- Claim C9 counterexample: an empty upload, a malformed upload, and an
upload whose header lacks the `Risk` column all end the tick in an
uncaught exception, not in a user-visible `SourceUnavailable` message. -/
theorem c9_counterexample :
    uploadTick (some .empty) = .crash ∧
    uploadTick (some .malformed) = .crash ∧
    uploadTick (some (.table ["Timestamp", "Vibration", "Slope", "Weather"]
      [["09:00:00", "1", "45", "Sunny"]])) = .crash :=
  ⟨rfl, rfl, by decide⟩

/-- Claim C9 (amended): only the absent-resource cases are handled with a
user-visible message and halt (no upload chosen; missing preloaded
file, whose bare `except` also covers empty or malformed content).  An
uploaded resource that is empty or malformed, or that lacks the `Risk`
column, ends in an uncaught exception because the Upload branch has no
handler and line 161 dereferences the column unconditionally. -/
theorem c9_load_error_handling (cols : List String)
    (rows : List (List String)) :
    uploadTick none = .haltMessage "Please upload a CSV to continue." ∧
    uploadTick (some .empty) = .crash ∧
    uploadTick (some .malformed) = .crash ∧
    ("Risk" ∉ cols → uploadTick (some (.table cols rows)) = .crash) ∧
    preloadedBranch none = .haltMessage "Preloaded file not found." ∧
    preloadedBranch (some .empty) = .haltMessage "Preloaded file not found." ∧
    preloadedBranch (some .malformed) =
      .haltMessage "Preloaded file not found." := by
  refine ⟨rfl, rfl, rfl, ?_, rfl, rfl, rfl⟩
  intro hmem
  unfold uploadTick uploadBranch read_csv metricsStep
  simp [hmem]

/-- Claim C9 witness: the missing-column case of the error-handling
theorem applied to a concrete header without `Risk`. -/
theorem c9_load_error_handling_witness :
    ("Risk" ∉ ["Timestamp", "Vibration"]) ∧
    uploadTick (some (.table ["Timestamp", "Vibration"] [])) = .crash :=
  ⟨by decide,
    (c9_load_error_handling ["Timestamp", "Vibration"] []).2.2.2.1 (by decide)⟩

/-- Claim C7: on a non-empty series with quantiles
`0 ≤ low_q ≤ high_q ≤ 1` (the observed configuration is 0.3 and 0.7),
the band has all four components defined, the low bound is at most the
high bound, and both bounds lie between the series minimum and maximum;
in the concrete configuration of the claim the band of
`[10, 20, 30, 40, 50]` is `(22, 38, 10, 50)`, with both bounds inside
`[10, 50]`. -/
theorem c7_band_ordered_bounds (vs : List ℚ) (low_q high_q : ℚ)
    (hne : vs ≠ []) (h0 : 0 ≤ low_q) (hlh : low_q ≤ high_q)
    (h1 : high_q ≤ 1) :
    (∃ lo hi mn mx,
      band vs low_q high_q = (some lo, some hi, some mn, some mx) ∧
      lo ≤ hi ∧ mn ≤ lo ∧ hi ≤ mx ∧ mn ≤ mx) ∧
    band [10, 20, 30, 40, 50] (3/10) (7/10) =
      (some 22, some 38, some 10, some 50) := by
  constructor
  · have hs := sortQ_sorted vs
    have hsn := sortQ_ne_nil hne
    have hlen1 : 1 ≤ vs.length := List.length_pos.mpr hne
    have hn1 : (0 : ℚ) ≤ (vs.length : ℚ) - 1 := by
      have h : (1 : ℚ) ≤ (vs.length : ℚ) := by exact_mod_cast hlen1
      linarith
    have hpl0 : 0 ≤ low_q * ((vs.length : ℚ) - 1) := mul_nonneg h0 hn1
    have hplph : low_q * ((vs.length : ℚ) - 1) ≤
        high_q * ((vs.length : ℚ) - 1) :=
      mul_le_mul_of_nonneg_right hlh hn1
    have hphle : high_q * ((vs.length : ℚ) - 1) ≤ (vs.length : ℚ) - 1 :=
      mul_le_of_le_one_left hn1 h1
    have hble : high_q * ((vs.length : ℚ) - 1) ≤
        ((sortQ vs).length : ℚ) - 1 := by
      rw [sortQ_length]
      exact hphle
    have hlo := interp_bounds hs hsn hpl0 (le_trans hplph hble)
    have hhi := interp_bounds hs hsn (le_trans hpl0 hplph) hble
    have hmono := interp_mono hs hsn hpl0 hplph hble
    obtain ⟨m, hm, hml⟩ := pdMin_spec hne
    obtain ⟨M, hM, hMu⟩ := pdMax_spec hne
    have hm0 : m ≤ (sortQ vs).getD 0 0 := hml _ (sortQ_head_mem hne)
    have hMl : (sortQ vs).getD (vs.length - 1) 0 ≤ M :=
      hMu _ (sortQ_last_mem hne)
    have hidx : (sortQ vs).length - 1 = vs.length - 1 := by
      rw [sortQ_length]
    have hhi2 : interp (sortQ vs) (high_q * ((vs.length : ℚ) - 1)) ≤ M := by
      have h2 := hhi.2
      rw [hidx] at h2
      exact le_trans h2 hMl
    refine ⟨interp (sortQ vs) (low_q * ((vs.length : ℚ) - 1)),
      interp (sortQ vs) (high_q * ((vs.length : ℚ) - 1)), m, M,
      ?_, hmono, le_trans hm0 hlo.1, hhi2,
      le_trans (le_trans hm0 hlo.1) (le_trans hmono hhi2)⟩
    rw [band, pdQuantile_eq_some hne, pdQuantile_eq_some hne, hm, hM]
  · have hsort : sortQ [10, 20, 30, 40, 50] = [10, 20, 30, 40, 50] := by
      norm_num [sortQ, List.insertionSort, List.orderedInsert]
    have hq1 : pdQuantile [10, 20, 30, 40, 50] (3/10) = some 22 := by
      rw [pdQuantile_eq_some (by simp), hsort]
      norm_num [interp, qIndex, qFrac, List.getD]
    have hq2 : pdQuantile [10, 20, 30, 40, 50] (7/10) = some 38 := by
      rw [pdQuantile_eq_some (by simp), hsort]
      have hqi : qIndex (14/5) = 2 := by
        unfold qIndex
        rw [show Int.floor ((14 : ℚ)/5) = 2 from by norm_num]
        simp
      norm_num [interp, hqi, qFrac, List.getD]
    have hmn : pdMin [10, 20, 30, 40, 50] = some 10 := by
      simp [pdMin, List.min?_cons', List.foldl, min_def]
      norm_num
    have hmx : pdMax [10, 20, 30, 40, 50] = some 50 := by
      simp [pdMax, List.max?_cons', List.foldl, max_def]
      norm_num
    rw [band, hq1, hq2, hmn, hmx]

/-- Claim C7 witness: the band bounds theorem applied to the concrete
series and quantiles of the claim. -/
theorem c7_band_ordered_bounds_witness :
    (([10, 20, 30, 40, 50] : List ℚ) ≠ [] ∧ (0 : ℚ) ≤ 3/10 ∧
      (3 : ℚ)/10 ≤ 7/10 ∧ (7 : ℚ)/10 ≤ 1) ∧
    ((∃ lo hi mn mx,
      band [10, 20, 30, 40, 50] (3/10) (7/10) =
        (some lo, some hi, some mn, some mx) ∧
      lo ≤ hi ∧ mn ≤ lo ∧ hi ≤ mx ∧ mn ≤ mx) ∧
    band [10, 20, 30, 40, 50] (3/10) (7/10) =
      (some 22, some 38, some 10, some 50)) :=
  ⟨⟨by simp, by norm_num, by norm_num, by norm_num⟩,
    c7_band_ordered_bounds [10, 20, 30, 40, 50] (3/10) (7/10)
      (by simp) (by norm_num) (by norm_num) (by norm_num)⟩

end BHM
